import Mathlib

/-!
Shallow embedding of the trading engine's strategy / risk / reconciliation
core (strategy_risk_engine, execution order manager, position reconciler).

Conventions:
* Python floats are modelled as exact rationals (ℚ).
* Timezone-aware datetimes are modelled as UTC instants in integer seconds
  since the epoch (ℤ); `astimezone(timezone.utc)` is the identity on the
  instant, and `date()` of an instant is its floor-division by 86400.
* Python dicts keyed by strings are modelled as functions to `Option`;
  the risk manager's position dict, which is iterated (sum / any), is
  modelled as an association list with unique keys.
* Code that raises (KeyError on an unregistered VA, exchange transport
  errors) is modelled with `Option`.
-/

namespace Engine

/-- Order side, from strategy_risk_engine/models.py (`Side`). -/
inductive Side where
  | buy
  | sell
deriving DecidableEq

/-- Entry type, from strategy_risk_engine/models.py (`EntryType`). -/
inductive EntryType where
  | market
  | stop
  | limit
deriving DecidableEq

/-- Stop-loss spec, from strategy_risk_engine/models.py (`StopLossSpec`):
tagged variant fixed(price) | trailing(trail_by). -/
inductive StopLossSpec where
  | fixed (price : ℚ)
  | trailing (trailBy : ℚ)
deriving DecidableEq

/-- `StopLossSpec.resolved_stop_price` from strategy_risk_engine/models.py. -/
def StopLossSpec.resolvedStopPrice : StopLossSpec → ℚ → Side → ℚ
  | .fixed p, _, _ => p
  | .trailing t, entry, .buy => entry - t
  | .trailing t, entry, .sell => entry + t

/-- Whether `spec.kind == "fixed"` in the Python representation. -/
def StopLossSpec.kindFixed : StopLossSpec → Bool
  | .fixed _ => true
  | .trailing _ => false

/-- OrderPlan from strategy_risk_engine/models.py.  `stop_loss` and
`take_profit` are `Option`s because `review_orderplan` tests them for
`None`; `take_profit` keeps only its price field. -/
structure OrderPlan where
  vaId : String
  symbol : String
  side : Side
  entryType : EntryType
  entryPrice : ℚ
  riskTag : String
  stopLoss : Option StopLossSpec
  takeProfit : Option ℚ
deriving DecidableEq

/-- Position from strategy_risk_engine/models.py. -/
structure Position where
  vaId : String
  symbol : String
  qty : ℚ
  avgEntryPrice : ℚ
deriving DecidableEq

/-- `Position.notional` property. -/
def Position.notional (p : Position) : ℚ := |p.qty| * p.avgEntryPrice

/-- `Position.side` property: BUY for qty > 0, SELL for qty < 0, None at 0. -/
def Position.sideOf (p : Position) : Option Side :=
  if 0 < p.qty then some .buy else if p.qty < 0 then some .sell else none

/-- ReviewResult from strategy_risk_engine/models.py. -/
structure ReviewResult where
  approved : Bool
  reason : Option String := none
  qty : Option ℚ := none
deriving DecidableEq

/-- MarketConstraints from strategy_risk_engine/sizing.py. -/
structure MarketConstraints where
  minQty : ℚ := 0
  minNotional : ℚ := 0
deriving DecidableEq

/-- SizeResult from strategy_risk_engine/sizing.py. -/
structure SizeResult where
  qty : ℚ
  reason : Option String := none
deriving DecidableEq

/-- Constructor parameters of `SizeCalculator` (sizing.py). -/
structure SizerConfig where
  riskPerTradePct : ℚ
  defaultLeverage : ℚ
  maxLeverage : ℚ
  marketConstraints : MarketConstraints
deriving DecidableEq

/-- Loss-decay factor inlined in `SizeCalculator.calculate_qty`:
0.25 when consecutive_losses ≥ 4, 0.5 when ≥ 2, else 1.0. -/
def lossDecay (consecutiveLosses : ℕ) : ℚ :=
  if 4 ≤ consecutiveLosses then 1/4
  else if 2 ≤ consecutiveLosses then 1/2
  else 1

/-- `SizeCalculator.calculate_qty` from strategy_risk_engine/sizing.py.
The stop-loss spec is passed explicitly: every Python call site reads it
from `plan.stop_loss`, which is non-None there. -/
def calculateQty (cfg : SizerConfig) (plan : OrderPlan) (sl : StopLossSpec)
    (virtualEquity : ℚ) (consecutiveLosses : ℕ) (leverage : Option ℚ) : SizeResult :=
  if virtualEquity ≤ 0 then ⟨0, some "virtual_equity_non_positive"⟩
  else
    let lev := min (leverage.getD cfg.defaultLeverage) cfg.maxLeverage
    if lev ≤ 0 then ⟨0, some "leverage_non_positive"⟩
    else
      let resolvedSl := sl.resolvedStopPrice plan.entryPrice plan.side
      let perUnitRisk := |plan.entryPrice - resolvedSl|
      if perUnitRisk ≤ 0 then ⟨0, some "stop_loss_distance_zero"⟩
      else
        let rawQty := virtualEquity * cfg.riskPerTradePct / perUnitRisk
        let qtyCap := virtualEquity * lev / plan.entryPrice
        let qty := min rawQty qtyCap * lossDecay consecutiveLosses
        if qty < cfg.marketConstraints.minQty then ⟨0, some "below_min_qty"⟩
        else if qty * plan.entryPrice < cfg.marketConstraints.minNotional then
          ⟨0, some "below_min_notional"⟩
        else ⟨if plan.side = Side.sell then -qty else qty, none⟩

/-- RiskConfig from strategy_risk_engine/risk.py (defaults included). -/
structure RiskConfig where
  maxDailyLoss : ℚ := 0
  maxDrawdownPct : ℚ := 3/10
  maxTradesPerDay : ℤ := 10
  riskPerTradePct : ℚ := 1/100
  defaultLeverage : ℚ := 3
  maxLeverage : ℚ := 5
  dailyResetHourUtc : ℤ := 0
  maxSymbolExposurePct : ℚ := 1
  marketConstraints : MarketConstraints := {}
deriving DecidableEq

/-- The `SizeCalculator` the RiskManager constructor builds from its config. -/
def RiskConfig.sizer (cfg : RiskConfig) : SizerConfig :=
  ⟨cfg.riskPerTradePct, cfg.defaultLeverage, cfg.maxLeverage, cfg.marketConstraints⟩

/-- VaState from strategy_risk_engine/risk.py.  `day_id` (an ISO date
string in Python) is modelled by the epoch-day number, an injective image
of the date. -/
structure VaState where
  virtualEquity : ℚ
  peakVirtualEquity : ℚ
  dailyPnl : ℚ := 0
  dailyTrades : ℤ := 0
  dayId : Option ℤ := none
  consecutiveLosses : ℕ := 0
  killSwitch : Bool := false
deriving DecidableEq

/-- In-memory state of `RiskManager` (risk.py): VA map, position dict keyed
by (va_id, symbol), symbol-owner map and blocked-until map. -/
structure RiskManager where
  config : RiskConfig
  realEquity : ℚ
  va : String → Option VaState
  positions : List Position
  symbolOwner : String → Option String
  blockedUntil : String × String → Option ℤ

/-- A freshly constructed `RiskManager(config=cfg, real_equity=re)`. -/
def initManager (cfg : RiskConfig) (realEquity : ℚ) : RiskManager :=
  ⟨cfg, realEquity, fun _ => none, [], fun _ => none, fun _ => none⟩

/-- Dict upsert on the (va_id, symbol)-keyed position dict. -/
def upsertPosition : List Position → Position → List Position
  | [], q => [q]
  | p :: ps, q =>
    if p.vaId = q.vaId ∧ p.symbol = q.symbol then q :: ps else p :: upsertPosition ps q

/-- Dict `pop` on the (va_id, symbol)-keyed position dict. -/
def erasePosition (vaId symbol : String) : List Position → List Position
  | [] => []
  | p :: ps =>
    if p.vaId = vaId ∧ p.symbol = symbol then ps else p :: erasePosition vaId symbol ps

/-- Dict lookup `self._positions.get((va_id, symbol))`. -/
def lookupPosition (ps : List Position) (vaId symbol : String) : Option Position :=
  ps.find? fun p => decide (p.vaId = vaId ∧ p.symbol = symbol)

/-- `RiskManager._any_position_for_symbol`. -/
def anyPositionForSymbol (ps : List Position) (symbol : String) : Bool :=
  ps.any fun p => decide (p.symbol = symbol ∧ p.qty ≠ 0)

/-- The Σ of `pos.notional` over positions on a symbol, as summed inside
`RiskManager._would_breach_symbol_exposure_cap`. -/
def sumNotionalForSymbol (ps : List Position) (symbol : String) : ℚ :=
  ((ps.filter fun p => decide (p.symbol = symbol)).map Position.notional).sum

/-- `RiskManager._day_id`: UTC date of (now − daily_reset_hour_utc hours),
as an epoch-day number. -/
def dayIdOf (resetHour : ℤ) (now : ℤ) : ℤ :=
  (now - resetHour * 3600).fdiv 86400

/-- `RiskManager._roll_day`. -/
def rollDay (cfg : RiskConfig) (st : VaState) (now : ℤ) : VaState :=
  let d := dayIdOf cfg.dailyResetHourUtc now
  match st.dayId with
  | none => { st with dayId := some d }
  | some old =>
    if d ≠ old then { st with dayId := some d, dailyPnl := 0, dailyTrades := 0 } else st

/-- Point update of the VA dict. -/
def updateVa (m : RiskManager) (vaId : String) (st : VaState) : RiskManager :=
  { m with va := fun x => if x = vaId then some st else m.va x }

/-- `RiskManager.register_va`. -/
def registerVa (m : RiskManager) (vaId : String) (virtualEquity : ℚ) : RiskManager :=
  updateVa m vaId
    { virtualEquity := virtualEquity, peakVirtualEquity := virtualEquity, dayId := none }

/-- `RiskManager.apply_governor_breach`. -/
def applyGovernorBreach (m : RiskManager) (vaId symbol : String) (now cooldown : ℤ) :
    RiskManager :=
  { m with blockedUntil := fun k =>
      if k = (vaId, symbol) then some (now + cooldown) else m.blockedUntil k }

/-- `RiskManager.record_trade_pnl`; `none` models the KeyError raised for
an unregistered VA. -/
def recordTradePnl (m : RiskManager) (vaId _symbol : String) (pnl : ℚ) (now : ℤ) :
    Option RiskManager :=
  match m.va vaId with
  | none => none
  | some st0 =>
    let st1 := rollDay m.config st0 now
    let st2 := { st1 with
      virtualEquity := st1.virtualEquity + pnl,
      dailyPnl := st1.dailyPnl + pnl,
      consecutiveLosses := if pnl < 0 then st1.consecutiveLosses + 1 else 0 }
    let st3 := { st2 with peakVirtualEquity := max st2.peakVirtualEquity st2.virtualEquity }
    let st4 :=
      if 0 < st3.peakVirtualEquity ∧
          m.config.maxDrawdownPct ≤ 1 - st3.virtualEquity / st3.peakVirtualEquity then
        { st3 with killSwitch := true }
      else st3
    let st5 := if st4.virtualEquity ≤ 0 then { st4 with killSwitch := true } else st4
    some (updateVa m vaId st5)

/-- `RiskManager.record_position`. -/
def recordPosition (m : RiskManager) (vaId symbol : String) (qty avgEntryPrice : ℚ) :
    RiskManager :=
  if qty = 0 then
    let ps := erasePosition vaId symbol m.positions
    if m.symbolOwner symbol = some vaId ∧ ¬ anyPositionForSymbol ps symbol then
      { m with positions := ps,
               symbolOwner := fun s => if s = symbol then none else m.symbolOwner s }
    else { m with positions := ps }
  else
    { m with positions := upsertPosition m.positions ⟨vaId, symbol, qty, avgEntryPrice⟩,
             symbolOwner := fun s => if s = symbol then some vaId else m.symbolOwner s }

/-- `RiskManager._would_breach_symbol_exposure_cap`, parameterised by the
fields of `self` it reads (config, real_equity, the position dict). -/
def wouldBreachCap (cfg : RiskConfig) (realEquity : ℚ) (positions : List Position)
    (symbol : String) (addNotional : ℚ) : Bool :=
  if cfg.maxSymbolExposurePct ≤ 0 then true
  else
    let cap := realEquity * cfg.maxSymbolExposurePct
    if cap ≤ 0 then true
    else decide (cap < sumNotionalForSymbol positions symbol + addNotional)

/-- The pure decision chain of `RiskManager.review_orderplan` (risk.py
lines 105-141), evaluated on the day-rolled state `st` and parameterised
by the fields of `self` the checks read (the VA map is not among them). -/
def reviewDecision (cfg : RiskConfig) (realEquity : ℚ) (positions : List Position)
    (symbolOwner : String → Option String) (blockedUntil : String × String → Option ℤ)
    (plan : OrderPlan) (now : ℤ) (st : VaState) : ReviewResult :=
  if st.killSwitch then ⟨false, some "kill_switch", none⟩
  else
    match plan.stopLoss with
    | none => ⟨false, some "stop_loss_required", none⟩
    | some sl =>
      if sl.kindFixed ∧ plan.takeProfit = none then
        ⟨false, some "take_profit_required_for_fixed", none⟩
      else if (match blockedUntil (plan.vaId, plan.symbol) with
               | some b => decide (now < b)
               | none => false) then
        ⟨false, some "cooldown_active", none⟩
      else if 0 < cfg.maxDailyLoss ∧ cfg.maxDailyLoss ≤ -st.dailyPnl then
        ⟨false, some "max_daily_loss", none⟩
      else if cfg.maxTradesPerDay ≤ st.dailyTrades then
        ⟨false, some "max_trades_per_day", none⟩
      else if (match symbolOwner plan.symbol with
               | some owner => decide (owner ≠ plan.vaId)
               | none => false) then
        ⟨false, some "symbol_owned_by_other_va", none⟩
      else if (match lookupPosition positions plan.vaId plan.symbol with
               | some p =>
                 match p.sideOf with
                 | some s => decide (s ≠ plan.side)
                 | none => false
               | none => false) then
        ⟨false, some "opposing_exposure_not_allowed", none⟩
      else
        let size := calculateQty cfg.sizer plan sl st.virtualEquity st.consecutiveLosses none
        if size.qty = 0 then ⟨false, size.reason, none⟩
        else if wouldBreachCap cfg realEquity positions plan.symbol
            (|size.qty| * plan.entryPrice) then
          ⟨false, some "net_exposure_cap", none⟩
        else ⟨true, none, some size.qty⟩

/-- `RiskManager.review_orderplan`: roll the day (the rolled state
persists even on rejection, since Python mutates the stored VaState in
place), run the decision chain, and on approval with reserve=True
increment daily_trades and `setdefault` the symbol owner.  `none` models
the KeyError raised for an unregistered VA. -/
def reviewOrderplan (m : RiskManager) (plan : OrderPlan) (now : ℤ) (reserve : Bool) :
    Option (ReviewResult × RiskManager) :=
  match m.va plan.vaId with
  | none => none
  | some st0 =>
    let st := rollDay m.config st0 now
    let m1 := updateVa m plan.vaId st
    let r := reviewDecision m1.config m1.realEquity m1.positions m1.symbolOwner
      m1.blockedUntil plan now st
    if r.approved && reserve then
      let m2 := updateVa m1 plan.vaId { st with dailyTrades := st.dailyTrades + 1 }
      some (r, { m2 with symbolOwner := fun s =>
        if s = plan.symbol then some ((m1.symbolOwner plan.symbol).getD plan.vaId)
        else m1.symbolOwner s })
    else some (r, m1)

/-- Candle from strategy_risk_engine/models.py; times are UTC instants in
seconds, and `opn` is the source's `open` field (a Lean keyword). -/
structure Candle where
  symbol : String
  openTime : ℤ
  closeTime : ℤ
  opn : ℚ
  high : ℚ
  low : ℚ
  close : ℚ
deriving DecidableEq

/-- Take-profit mode of the strategy config. -/
inductive TpMode where
  | fixed
  | trailing
deriving DecidableEq

/-- StrategyConfig from strategy_risk_engine/strategy.py (defaults included). -/
structure StrategyConfig where
  lookbackCandles : ℕ := 20
  tpMode : TpMode := .fixed
  fixedTpR : ℚ := 9/5
  slRangeMult : ℚ := 1
  minStopDistance : ℚ := 0
  riskTag : String := "vol_breakout_5m_closed"
deriving DecidableEq

/-- Eligibility filter of `VolatilityBreakoutStrategy.evaluate`:
same symbol and `close_time <= as_of`. -/
def eligibleCandle (symbol : String) (asOf : ℤ) (c : Candle) : Bool :=
  decide (c.symbol = symbol ∧ c.closeTime ≤ asOf)

/-- Maximum of a nonempty list given its head (Python `max(...)`). -/
def listMax (a : ℚ) (l : List ℚ) : ℚ := l.foldl max a

/-- Minimum of a nonempty list given its head (Python `min(...)`). -/
def listMin (a : ℚ) (l : List ℚ) : ℚ := l.foldl min a

/-- `VolatilityBreakoutStrategy.evaluate` from strategy_risk_engine/strategy.py.
The two `none` fallbacks for an empty window / empty reference are
unreachable for `lookback_candles ≥ 1` (Python would raise on
`max()` of an empty sequence when lookback is 0). -/
def evaluate (cfg : StrategyConfig) (vaId symbol : String) (asOf : ℤ)
    (candles : List Candle) : Option OrderPlan :=
  let closed := candles.filter (eligibleCandle symbol asOf)
  if closed.length < cfg.lookbackCandles + 1 then none
  else
    let window := closed.drop (closed.length - (cfg.lookbackCandles + 1))
    match window.getLast? with
    | none => none
    | some trigger =>
      match window.dropLast with
      | [] => none
      | r :: rs =>
        let reference := r :: rs
        let prevHigh := listMax r.high (rs.map Candle.high)
        let prevLow := listMin r.low (rs.map Candle.low)
        let sideOpt : Option Side :=
          if prevHigh < trigger.close then some .buy
          else if trigger.close < prevLow then some .sell
          else none
        match sideOpt with
        | none => none
        | some side =>
          let avgRange := ((reference.map fun c => c.high - c.low).sum) / (reference.length : ℚ)
          let stopDistance := max cfg.minStopDistance (avgRange * cfg.slRangeMult)
          let entryPrice := trigger.close
          let slPrice := if side = Side.buy then entryPrice - stopDistance
                         else entryPrice + stopDistance
          let tpPrice := if side = Side.buy then entryPrice + cfg.fixedTpR * stopDistance
                         else entryPrice - cfg.fixedTpR * stopDistance
          some
            { vaId := vaId
              symbol := symbol
              side := side
              entryType := .market
              entryPrice := entryPrice
              riskTag := cfg.riskTag
              stopLoss :=
                if cfg.tpMode = TpMode.fixed then some (.fixed slPrice)
                else some (.trailing stopDistance)
              takeProfit := if cfg.tpMode = TpMode.fixed then some tpPrice else none }

/-- Order-manager position record (src/src/storage/models.py `Position`),
restricted to the fields `OrderManager.check_stop_loss` reads. -/
structure OmPosition where
  quantity : ℚ
  stopLossPrice : Option ℚ
deriving DecidableEq

/-- `OrderManager.check_stop_loss` from src/src/execution/order_manager.py.
The Python guard `if not position.stop_loss_price` is falsy for both
`None` and `0.0`. -/
def checkStopLoss (p : OmPosition) (currentPrice : ℚ) : Bool :=
  match p.stopLossPrice with
  | none => false
  | some sl =>
    if sl = 0 then false
    else if 0 < p.quantity ∧ currentPrice ≤ sl then true
    else if p.quantity < 0 ∧ sl ≤ currentPrice then true
    else false

/-- Exchange position (exchange/models.py `ExchangePosition`), fields the
reconciler reads; `side` is the exchange-side string "Buy"/"Sell". -/
structure XPosition where
  symbol : String
  side : String
  qty : ℚ
  avgEntryPrice : ℚ
  stopLossPrice : Option ℚ
deriving DecidableEq

/-- Exchange order fields read by `PositionReconciler._enforce_sl_attachment`. -/
structure XOrder where
  orderId : String
  price : ℚ
  reduceOnly : Bool
  status : String
deriving DecidableEq

/-- A database position record as returned by `Database.get_position`;
only its presence matters to the reconciler. -/
structure DbPositionRecord where
  vaId : String
  symbol : String
  qty : ℚ
deriving DecidableEq

/-- Environment of a reconcile pass: the exchange client and database
responses.  `none` in `getOpenOrders` / `attachStopLoss` /
`panicClosePosition` models a raised exception. -/
structure RecEnv where
  positions : List XPosition
  getPosition : String → String → Option DbPositionRecord
  getOpenOrders : String → Option (List XOrder)
  attachStopLoss : String → String → ℚ → Option Bool
  panicClosePosition : String → String → ℚ → Option XOrder

/-- Observable effects of a reconcile pass: exchange close calls and
incident rows written. -/
inductive RecEffect where
  | panicCall (symbol side : String) (qty : ℚ)
  | incident (incidentType : String) (symbol : String) (orderId : Option String)
deriving DecidableEq

/-- `PositionReconciler._panic_close`: close call, then a `panic_close`
incident referencing the close order id, or `panic_close_failed` when the
exchange call raises. -/
def panicClose (env : RecEnv) (p : XPosition) : List RecEffect :=
  match env.panicClosePosition p.symbol p.side p.qty with
  | some o => [.panicCall p.symbol p.side p.qty,
               .incident "panic_close" p.symbol (some o.orderId)]
  | none => [.panicCall p.symbol p.side p.qty,
             .incident "panic_close_failed" p.symbol none]

/-- `PositionReconciler._enforce_sl_attachment`: look for a live
non-reduce-only entry order, try to attach a 2%-from-entry stop, and on
any failure (no entry order, attach returns False, or an exception)
panic-close. -/
def enforceSlAttachment (env : RecEnv) (p : XPosition) : List RecEffect :=
  match env.getOpenOrders p.symbol with
  | none => panicClose env p
  | some orders =>
    match orders.filter (fun o =>
        !o.reduceOnly && (o.status == "New" || o.status == "PartiallyFilled")) with
    | [] => panicClose env p
    | o :: _ =>
      let slPrice := if p.side = "Buy" then o.price * (98/100) else o.price * (102/100)
      match env.attachStopLoss p.symbol o.orderId slPrice with
      | some true => []
      | some false => panicClose env p
      | none => panicClose env p

/-- `PositionReconciler.reconcile_positions`: for each exchange position,
look up `db.get_position(va_id="unknown", symbol=...)`; skip the position
entirely when that lookup returns nothing; otherwise enforce SL
attachment when the exchange position has no stop-loss. -/
def reconcilePositions (env : RecEnv) : List RecEffect :=
  (env.positions.map fun p =>
    match env.getPosition "unknown" p.symbol with
    | none => []
    | some _ => if p.stopLossPrice.isNone then enforceSlAttachment env p else []).flatten

/-- Spec-side review, written from the spec's §4.4 list ("Checks, in this
exact order (first failure wins, reason string stable)") rather than from
the code, for comparison with `reviewOrderplan`:
1. kill_switch; 2. stop_loss absent; 3. fixed stop-loss without
take-profit; 4. blocked_until > now; 5. max_daily_loss > 0 and
−daily_pnl ≥ max_daily_loss; 6. daily_trades ≥ max_trades_per_day;
7. symbol owned by another VA; 8. existing position with opposing side;
9. sizer qty == 0 → sizer's reason; 10. Σ notional over the symbol plus
|qty|·entry exceeding real_equity · max_symbol_exposure_pct (cap ≤ 0
always blocked); approval carries the sized qty.  The day is rolled
before the checks, and an unregistered VA is the `va_not_registered`
error, modelled as `none`. -/
def reviewSpec (m : RiskManager) (plan : OrderPlan) (now : ℤ) : Option ReviewResult :=
  match m.va plan.vaId with
  | none => none
  | some st0 =>
    let st := rollDay m.config st0 now
    some (
    if st.killSwitch then ⟨false, some "kill_switch", none⟩
    else
      match plan.stopLoss with
      | none => ⟨false, some "stop_loss_required", none⟩
      | some sl =>
        if sl.kindFixed ∧ plan.takeProfit = none then
          ⟨false, some "take_profit_required_for_fixed", none⟩
        else if (m.blockedUntil (plan.vaId, plan.symbol)).any (fun b => decide (now < b)) then
          ⟨false, some "cooldown_active", none⟩
        else if 0 < m.config.maxDailyLoss ∧ m.config.maxDailyLoss ≤ -st.dailyPnl then
          ⟨false, some "max_daily_loss", none⟩
        else if m.config.maxTradesPerDay ≤ st.dailyTrades then
          ⟨false, some "max_trades_per_day", none⟩
        else if (m.symbolOwner plan.symbol).any (fun owner => owner != plan.vaId) then
          ⟨false, some "symbol_owned_by_other_va", none⟩
        else if (lookupPosition m.positions plan.vaId plan.symbol).any
            (fun p => p.sideOf.any fun s => decide (s ≠ plan.side)) then
          ⟨false, some "opposing_exposure_not_allowed", none⟩
        else
          let size := calculateQty m.config.sizer plan sl st.virtualEquity
            st.consecutiveLosses none
          if size.qty = 0 then ⟨false, size.reason, none⟩
          else
            let cap := m.realEquity * m.config.maxSymbolExposurePct
            if cap ≤ 0 ∨
                cap < sumNotionalForSymbol m.positions plan.symbol +
                  |size.qty| * plan.entryPrice then
              ⟨false, some "net_exposure_cap", none⟩
            else ⟨true, none, some size.qty⟩)

/-- The RiskManager entry points quantified over in the kill-switch
invariant claim. -/
inductive RmOp where
  | register (vaId : String) (virtualEquity : ℚ)
  | review (plan : OrderPlan) (now : ℤ) (reserve : Bool)
  | recordPnl (vaId symbol : String) (pnl : ℚ) (now : ℤ)
  | recordPos (vaId symbol : String) (qty avgEntryPrice : ℚ)

/-- Execute one entry point; a call that raises (unregistered VA) leaves
the state unchanged, since the KeyError is thrown before any mutation. -/
def execOp (m : RiskManager) : RmOp → RiskManager
  | .register v e => registerVa m v e
  | .review plan now reserve =>
    match reviewOrderplan m plan now reserve with
    | some (_, m') => m'
    | none => m
  | .recordPnl v s pnl now => (recordTradePnl m v s pnl now).getD m
  | .recordPos v s q a => recordPosition m v s q a

/-- Execute a call sequence left to right. -/
def execOps (m : RiskManager) (ops : List RmOp) : RiskManager := ops.foldl execOp m

/-- Spec §3 invariant: a tracked VA with non-positive virtual equity, or
with drawdown 1 − equity/peak ≥ max_drawdown_pct while peak > 0, has its
kill switch latched. -/
def KillInvariant (m : RiskManager) : Prop :=
  ∀ vaId st, m.va vaId = some st →
    (st.virtualEquity ≤ 0 → st.killSwitch = true) ∧
    (0 < st.peakVirtualEquity →
      m.config.maxDrawdownPct ≤ 1 - st.virtualEquity / st.peakVirtualEquity →
      st.killSwitch = true)

/-- Side condition under which the kill-switch invariant is preserved:
`register_va` is only called with positive virtual equity. -/
def RegisterPositive : RmOp → Prop
  | .register _ e => 0 < e
  | _ => True

/-- A 5-minute candle for symbol BTCUSDT closing at instant `t`. -/
def mkCandle (t : ℤ) (o h l c : ℚ) : Candle :=
  ⟨"BTCUSDT", t - 300, t, o, h, l, c⟩

/-- Scenario-1 candle set (closes 100,101,102,105 at t0+5m..t0+20m with
t0 = 0) plus the future candle closing at t0+25m with close=109. -/
def scenCandles : List Candle :=
  [ mkCandle 300 100 101 99 100,
    mkCandle 600 100 102 99 101,
    mkCandle 900 101 103 100 102,
    mkCandle 1200 102 104 101 105,
    mkCandle 1500 103 110 102 109 ]

/-- Strategy config of the spec's concrete scenarios: lookback 3, fixed
take-profit mode, fixed_tp_r = 1.7, sl_range_mult = 1, min_stop = 0. -/
def scenStratCfg : StrategyConfig :=
  { lookbackCandles := 3, tpMode := .fixed, fixedTpR := 17/10,
    slRangeMult := 1, minStopDistance := 0 }

/-- A plain BUY plan: entry 100, fixed stop at 99, take-profit 110. -/
def samplePlan : OrderPlan :=
  ⟨"va1", "BTCUSDT", .buy, .market, 100, "tag", some (.fixed 99), some 110⟩

/-- A manager with default config, real equity 10000, and va1 registered
at virtual equity 1000. -/
def sampleManager : RiskManager := registerVa (initManager {} 10000) "va1" 1000

/-- Config of the daily-reset scenario: max_trades_per_day = 1,
daily_reset_hour_utc = 0, all else default. -/
def c6cfg : RiskConfig := { maxTradesPerDay := 1 }

/-- Manager for the daily-reset scenario. -/
def c6m0 : RiskManager := registerVa (initManager c6cfg 10000) "va1" 1000

/-- 2025-01-01 23:59:00Z as epoch seconds (2025-01-01 is epoch day 20089). -/
def c6t1 : ℤ := 20089 * 86400 + 23 * 3600 + 59 * 60

/-- 2025-01-01 23:59:30Z, the same minute as `c6t1`. -/
def c6t2 : ℤ := c6t1 + 30

/-- 2025-01-02 00:01:00Z as epoch seconds. -/
def c6t3 : ℤ := 20090 * 86400 + 60

/-- Config with risk_per_trade_pct = 0 and zero market constraints. -/
def c10cfg : RiskConfig := { riskPerTradePct := 0 }

/-- Manager for the zero-risk-budget edge case. -/
def c10m : RiskManager := registerVa (initManager c10cfg 10000) "va1" 1000

/-- Reconciler environment of scenario 7: one exchange position
(BTCUSDT, Buy, qty 1, no stop-loss), a database that has no position
record at all (in particular none keyed by va_id "unknown"), no open
orders, and an exchange that would panic-close successfully with close
order id CLOSE-1. -/
def c2env : RecEnv :=
  { positions := [⟨"BTCUSDT", "Buy", 1, 100, none⟩]
    getPosition := fun _ _ => none
    getOpenOrders := fun _ => some []
    attachStopLoss := fun _ _ _ => some false
    panicClosePosition := fun _ _ _ => some ⟨"CLOSE-1", 100, true, "New"⟩ }

/-- The same environment with a database position record attributable to
the literal va_id "unknown" for BTCUSDT. -/
def c2envAttr : RecEnv :=
  { c2env with getPosition := fun v s =>
      if v = "unknown" ∧ s = "BTCUSDT" then some ⟨"unknown", "BTCUSDT", 1⟩ else none }

/-- A manager whose position map holds one position (vb, BTCUSDT) owned
by vb, used to witness the round-trip theorem. -/
def c7m : RiskManager :=
  { config := {}, realEquity := 0, va := fun _ => none,
    positions := [⟨"vb", "BTCUSDT", 2, 50⟩],
    symbolOwner := fun s => if s = "BTCUSDT" then some "vb" else none,
    blockedUntil := fun _ => none }

/-! Helper lemmas shared across the verification. -/

theorem filter_filter_self {α : Type} (p : α → Bool) (l : List α) :
    (l.filter p).filter p = l.filter p := by
  induction l with
  | nil => rfl
  | cons a l ih =>
    by_cases h : p a
    · simp [List.filter_cons, h, ih]
    · simp [List.filter_cons, h, ih]

theorem rollDay_rollDay (cfg : RiskConfig) (st : VaState) (now : ℤ) :
    rollDay cfg (rollDay cfg st now) now = rollDay cfg st now := by
  simp only [rollDay]
  cases h : st.dayId with
  | none => simp
  | some old =>
    by_cases heq : dayIdOf cfg.dailyResetHourUtc now = old
    · simp [h, heq]
    · simp [h, heq]

theorem updateVa_va_self (m : RiskManager) (vaId : String) (st : VaState) :
    (updateVa m vaId st).va vaId = some st := by simp [updateVa]

theorem mem_erasePosition {p : Position} {va sym : String} {ps : List Position} :
    p ∈ erasePosition va sym ps → p ∈ ps := by
  induction ps with
  | nil => simp [erasePosition]
  | cons a ps ih =>
    simp only [erasePosition]
    split
    · exact fun h => List.mem_cons_of_mem a h
    · intro h
      rcases List.mem_cons.mp h with h | h
      · exact h ▸ List.mem_cons_self a ps
      · exact List.mem_cons_of_mem a (ih h)

theorem mem_upsertPosition {p q : Position} {ps : List Position} :
    p ∈ upsertPosition ps q → p ∈ ps ∨ p = q := by
  induction ps with
  | nil => simp [upsertPosition]
  | cons a ps ih =>
    simp only [upsertPosition]
    split
    · intro h
      rcases List.mem_cons.mp h with h | h
      · exact Or.inr h
      · exact Or.inl (List.mem_cons_of_mem a h)
    · intro h
      rcases List.mem_cons.mp h with h | h
      · exact Or.inl (h ▸ List.mem_cons_self a ps)
      · rcases ih h with h | h
        · exact Or.inl (List.mem_cons_of_mem a h)
        · exact Or.inr h

theorem pairwise_upsertPosition {ps : List Position} {q : Position}
    (h : ps.Pairwise fun a b => ¬(a.vaId = b.vaId ∧ a.symbol = b.symbol)) :
    (upsertPosition ps q).Pairwise fun a b => ¬(a.vaId = b.vaId ∧ a.symbol = b.symbol) := by
  induction ps with
  | nil => simp [upsertPosition]
  | cons a ps ih =>
    rcases List.pairwise_cons.mp h with ⟨ha, hps⟩
    simp only [upsertPosition]
    split
    · rename_i hkey
      refine List.pairwise_cons.mpr ⟨?_, hps⟩
      intro b hb hab
      exact ha b hb ⟨hkey.1.symm ▸ hab.1, hkey.2.symm ▸ hab.2⟩
    · rename_i hkey
      refine List.pairwise_cons.mpr ⟨?_, ih hps⟩
      intro b hb
      rcases mem_upsertPosition hb with hb | hb
      · exact ha b hb
      · exact hb ▸ hkey

theorem lookup_erase_none {va sym : String} {ps : List Position}
    (h : ps.Pairwise fun a b => ¬(a.vaId = b.vaId ∧ a.symbol = b.symbol)) :
    lookupPosition (erasePosition va sym ps) va sym = none := by
  induction ps with
  | nil => rfl
  | cons a ps ih =>
    rcases List.pairwise_cons.mp h with ⟨ha, hps⟩
    simp only [erasePosition]
    split
    · rename_i hkey
      unfold lookupPosition
      rw [List.find?_eq_none]
      intro b hb
      simp only [decide_eq_true_eq]
      intro hbk
      exact ha b hb ⟨hkey.1 ▸ hbk.1.symm ▸ rfl, hkey.2 ▸ hbk.2.symm ▸ rfl⟩
    · rename_i hkey
      unfold lookupPosition
      rw [List.find?_cons_of_neg]
      · exact ih hps
      · simp only [decide_eq_true_eq]
        exact hkey

theorem anyPositionForSymbol_iff (ps : List Position) (sym : String) :
    anyPositionForSymbol ps sym = true ↔ ∃ p ∈ ps, p.symbol = sym ∧ p.qty ≠ 0 := by
  simp [anyPositionForSymbol]

theorem rollDay_riskFields (cfg : RiskConfig) (st : VaState) (now : ℤ) :
    (rollDay cfg st now).virtualEquity = st.virtualEquity ∧
    (rollDay cfg st now).peakVirtualEquity = st.peakVirtualEquity ∧
    (rollDay cfg st now).killSwitch = st.killSwitch := by
  unfold rollDay
  cases st.dayId with
  | none => exact ⟨rfl, rfl, rfl⟩
  | some old =>
    dsimp only
    split <;> exact ⟨rfl, rfl, rfl⟩

theorem reviewOrderplan_state (m : RiskManager) (plan : OrderPlan) (now : ℤ) (reserve : Bool)
    (r : ReviewResult) (m' : RiskManager)
    (h : reviewOrderplan m plan now reserve = some (r, m')) :
    m'.config = m.config ∧
    ∀ x, m'.va x = m.va x ∨ ∃ st0 st', m.va x = some st0 ∧ m'.va x = some st' ∧
      st'.virtualEquity = st0.virtualEquity ∧
      st'.peakVirtualEquity = st0.peakVirtualEquity ∧
      st'.killSwitch = st0.killSwitch := by
  unfold reviewOrderplan at h
  cases hva : m.va plan.vaId with
  | none => rw [hva] at h; exact absurd h (by simp)
  | some st0 =>
    rw [hva] at h
    dsimp only at h
    rcases rollDay_riskFields m.config st0 now with ⟨hf1, hf2, hf3⟩
    split at h
    · have hm' := (Prod.mk.injEq _ _ _ _ ▸ Option.some.inj h).2
      subst hm'
      refine ⟨rfl, fun x => ?_⟩
      by_cases hx : x = plan.vaId
      · subst hx
        refine Or.inr ⟨st0,
          { rollDay m.config st0 now with
            dailyTrades := (rollDay m.config st0 now).dailyTrades + 1 },
          hva, by simp [updateVa], hf1, hf2, hf3⟩
      · left
        simp [updateVa, hx]
    · have hm' := (Prod.mk.injEq _ _ _ _ ▸ Option.some.inj h).2
      subst hm'
      refine ⟨rfl, fun x => ?_⟩
      by_cases hx : x = plan.vaId
      · subst hx
        exact Or.inr ⟨st0, _, hva, by simp [updateVa], hf1, hf2, hf3⟩
      · left
        simp [updateVa, hx]

theorem recordTradePnl_shape (m : RiskManager) (va sym : String) (pnl : ℚ) (now : ℤ)
    (m' : RiskManager) (h : recordTradePnl m va sym pnl now = some m') :
    ∃ st5, m' = updateVa m va st5 ∧
      (st5.virtualEquity ≤ 0 → st5.killSwitch = true) ∧
      (0 < st5.peakVirtualEquity →
        m.config.maxDrawdownPct ≤ 1 - st5.virtualEquity / st5.peakVirtualEquity →
        st5.killSwitch = true) := by
  unfold recordTradePnl at h
  cases hva : m.va va with
  | none => rw [hva] at h; exact absurd h (by simp)
  | some st0 =>
    rw [hva] at h
    dsimp only at h
    have hm' := (Option.some.inj h).symm
    refine ⟨_, hm', ?_, ?_⟩
    · split
      all_goals try split
      all_goals try split
      all_goals intro hv
      all_goals first
        | rfl
        | (rename_i hc; exact absurd hv hc)
    · split
      all_goals try split
      all_goals try split
      all_goals intro hp hd
      all_goals try rfl
      all_goals exact absurd (And.intro hp hd) (by assumption)

theorem recordPosition_va_config (m : RiskManager) (va sym : String) (q a : ℚ) :
    (recordPosition m va sym q a).va = m.va ∧ (recordPosition m va sym q a).config = m.config := by
  unfold recordPosition
  split
  · dsimp only
    split <;> exact ⟨rfl, rfl⟩
  · exact ⟨rfl, rfl⟩

theorem execOp_config (m : RiskManager) (op : RmOp) : (execOp m op).config = m.config := by
  cases op with
  | register v e => rfl
  | review plan now reserve =>
    unfold execOp
    dsimp only
    cases hrev : reviewOrderplan m plan now reserve with
    | none => rfl
    | some rm =>
      obtain ⟨r, m'⟩ := rm
      exact (reviewOrderplan_state m plan now reserve r m' hrev).1
  | recordPnl v s pnl now =>
    unfold execOp
    dsimp only
    cases hrec : recordTradePnl m v s pnl now with
    | none => rfl
    | some m' =>
      rw [Option.getD_some]
      rcases recordTradePnl_shape m v s pnl now m' hrec with ⟨st5, hm', _, _⟩
      rw [hm']
      rfl
  | recordPos v s q a => exact (recordPosition_va_config m v s q a).2

theorem execOp_kill_invariant (m : RiskManager) (op : RmOp)
    (hdd : 0 < m.config.maxDrawdownPct) (hinv : KillInvariant m)
    (hop : RegisterPositive op) : KillInvariant (execOp m op) := by
  cases op with
  | register v e =>
    intro x st hx
    have he : 0 < e := hop
    unfold execOp registerVa updateVa at hx
    dsimp only at hx
    by_cases hxv : x = v
    · rw [if_pos hxv] at hx
      have hst := Option.some.inj hx
      subst hst
      constructor
      · intro hle
        exact absurd hle (not_le.mpr he)
      · intro _ hdle
        rw [div_self (ne_of_gt he)] at hdle
        norm_num at hdle
        exact absurd (lt_of_lt_of_le hdd hdle) (lt_irrefl 0)
    · rw [if_neg hxv] at hx
      exact hinv x st hx
  | review plan now reserve =>
    unfold execOp
    dsimp only
    cases hrev : reviewOrderplan m plan now reserve with
    | none => exact hinv
    | some rm =>
      obtain ⟨r, mR⟩ := rm
      rcases reviewOrderplan_state m plan now reserve r mR hrev with ⟨hc, hva⟩
      intro x st hx
      rcases hva x with hsame | ⟨st0, st', h0, h', hf1, hf2, hf3⟩
      · rw [hsame] at hx
        rw [hc]
        exact hinv x st hx
      · rw [h'] at hx
        have hst := Option.some.inj hx
        subst hst
        rcases hinv x st0 h0 with ⟨hA, hB⟩
        rw [hc]
        constructor
        · rw [hf1, hf3]
          exact hA
        · rw [hf1, hf2, hf3]
          exact hB
  | recordPnl v s pnl now =>
    unfold execOp
    dsimp only
    cases hrec : recordTradePnl m v s pnl now with
    | none => exact hinv
    | some m' =>
      rw [Option.getD_some]
      rcases recordTradePnl_shape m v s pnl now m' hrec with ⟨st5, hm', hA, hB⟩
      subst hm'
      intro x st hx
      unfold updateVa at hx
      dsimp only at hx
      by_cases hxv : x = v
      · rw [if_pos hxv] at hx
        have hst := Option.some.inj hx
        subst hst
        exact ⟨hA, hB⟩
      · rw [if_neg hxv] at hx
        exact hinv x st hx
  | recordPos v s q a =>
    unfold execOp
    dsimp only
    intro x st hx
    rw [(recordPosition_va_config m v s q a).1] at hx
    have := hinv x st hx
    rw [(recordPosition_va_config m v s q a).2]
    exact this

theorem wouldBreachCap_eq (cfg : RiskConfig) (re : ℚ) (ps : List Position)
    (sym : String) (add : ℚ) (hre : 0 ≤ re) :
    wouldBreachCap cfg re ps sym add =
      decide (re * cfg.maxSymbolExposurePct ≤ 0 ∨
        re * cfg.maxSymbolExposurePct < sumNotionalForSymbol ps sym + add) := by
  unfold wouldBreachCap
  by_cases h1 : cfg.maxSymbolExposurePct ≤ 0
  · rw [if_pos h1]
    have hcap : re * cfg.maxSymbolExposurePct ≤ 0 :=
      mul_nonpos_iff.mpr (Or.inl ⟨hre, h1⟩)
    simp [hcap]
  · rw [if_neg h1]
    dsimp only
    by_cases h2 : re * cfg.maxSymbolExposurePct ≤ 0
    · simp [h2]
    · simp [h2]

/-! Claim theorems. -/

/-- C2: the reconciler, seeing the scenario-7 exchange position (BTCUSDT,
BUY, qty 1, stop_loss_price None, no local entry order), performs no
panic close and records no incident when the database has no position
record keyed by the literal va_id "unknown" — the `if not va_pos:
continue` gate skips the position — while the very same environment with
such a record produces exactly the claimed panic-close call (side BUY,
full qty 1) and a `panic_close` incident referencing the close order id. -/
theorem c2_panic_close_gate :
    reconcilePositions c2env = [] ∧
    reconcilePositions c2envAttr =
      [.panicCall "BTCUSDT" "Buy" 1, .incident "panic_close" "BTCUSDT" (some "CLOSE-1")] :=
  ⟨by decide, by decide⟩

/-- C8 counterexample: a short position whose stop_loss_price is the
present value 0.0 is treated as having no stop (Python falsiness of 0.0),
so `check_stop_loss` returns False although price 5 ≥ 0 — the claimed
equivalence fails at this input. -/
theorem c8_counterexample :
    ¬ (checkStopLoss ⟨-1, some 0⟩ 5 = true ↔ (0:ℚ) ≤ 5) := by decide

/-- C8 (amended): for a position whose stop_loss_price is a non-zero
value v, a long position triggers exactly when price ≤ v and a short
position exactly when price ≥ v. -/
theorem c8_check_stop_loss_thresholds (p : OmPosition) (x v : ℚ)
    (hsl : p.stopLossPrice = some v) (hv : v ≠ 0) :
    (0 < p.quantity → (checkStopLoss p x = true ↔ x ≤ v)) ∧
    (p.quantity < 0 → (checkStopLoss p x = true ↔ v ≤ x)) := by
  unfold checkStopLoss
  rw [hsl]
  dsimp only
  constructor
  · intro hq
    rw [if_neg hv]
    by_cases hx : x ≤ v
    · simp [hq, hx]
    · simp [hx, not_lt.mpr (le_of_lt hq)]
  · intro hq
    rw [if_neg hv]
    have hq' : ¬ 0 < p.quantity := not_lt.mpr (le_of_lt hq)
    by_cases hx : v ≤ x
    · simp [hq, hx, hq']
    · simp [hx, hq']

/-- C8 witness: the amended theorem applied to a long position with stop
99 and price 98. -/
theorem c8_witness :
    OmPosition.stopLossPrice ⟨1, some 99⟩ = some 99 ∧ (99:ℚ) ≠ 0 ∧
    ((0 < (1:ℚ) → (checkStopLoss ⟨1, some 99⟩ 98 = true ↔ (98:ℚ) ≤ 99)) ∧
     ((1:ℚ) < 0 → (checkStopLoss ⟨1, some 99⟩ 98 = true ↔ (99:ℚ) ≤ 98))) :=
  ⟨rfl, by decide, c8_check_stop_loss_thresholds ⟨1, some 99⟩ 98 99 rfl (by decide)⟩

/-- C5: the sizer's loss-decay factor is 1 for fewer than 2 consecutive
losses, 0.5 from 2, and 0.25 from 4, and for inputs passing the equity,
leverage and stop-distance guards `calculate_qty` applies it
multiplicatively to min(raw_qty, qty_cap) before the min_qty and
min_notional rejection checks. -/
theorem c5_loss_decay_applied :
    (∀ c : ℕ, (c < 2 → lossDecay c = 1) ∧ (2 ≤ c → c < 4 → lossDecay c = 1/2) ∧
      (4 ≤ c → lossDecay c = 1/4)) ∧
    (∀ (cfg : SizerConfig) (plan : OrderPlan) (sl : StopLossSpec) (ve : ℚ) (c : ℕ)
        (lev : Option ℚ),
      0 < ve →
      0 < min (lev.getD cfg.defaultLeverage) cfg.maxLeverage →
      0 < |plan.entryPrice - sl.resolvedStopPrice plan.entryPrice plan.side| →
      calculateQty cfg plan sl ve c lev =
        (let q := min
            (ve * cfg.riskPerTradePct /
              |plan.entryPrice - sl.resolvedStopPrice plan.entryPrice plan.side|)
            (ve * min (lev.getD cfg.defaultLeverage) cfg.maxLeverage / plan.entryPrice)
          * lossDecay c
         if q < cfg.marketConstraints.minQty then ⟨0, some "below_min_qty"⟩
         else if q * plan.entryPrice < cfg.marketConstraints.minNotional then
           ⟨0, some "below_min_notional"⟩
         else ⟨if plan.side = Side.sell then -q else q, none⟩)) := by
  constructor
  · intro c
    refine ⟨fun h => ?_, fun h2 h4 => ?_, fun h => ?_⟩
    · unfold lossDecay
      rw [if_neg (by omega), if_neg (by omega)]
    · unfold lossDecay
      rw [if_neg (by omega), if_pos h2]
    · unfold lossDecay
      rw [if_pos h]
  · intro cfg plan sl ve c lev hve hlev hrisk
    unfold calculateQty
    rw [if_neg (not_le.mpr hve), if_neg (not_le.mpr hlev), if_neg (not_le.mpr hrisk)]

/-- C5 witness: the pipeline equation at the spec's size-decay scenario
(equity 998 after two losses, entry 100, stop 99): min(9.98, 29.94) × 0.5
clears the zero market constraints and yields 4.99. -/
theorem c5_witness :
    0 < (998:ℚ) ∧
    calculateQty ⟨1/100, 3, 5, ⟨0, 0⟩⟩ samplePlan (.fixed 99) 998 2 none =
      (let q := min
          ((998:ℚ) * (1/100) /
            |samplePlan.entryPrice -
              StopLossSpec.resolvedStopPrice (.fixed 99) samplePlan.entryPrice samplePlan.side|)
          ((998:ℚ) * min ((none : Option ℚ).getD 3) 5 / samplePlan.entryPrice)
        * lossDecay 2
       if q < (0:ℚ) then ⟨0, some "below_min_qty"⟩
       else if q * samplePlan.entryPrice < (0:ℚ) then ⟨0, some "below_min_notional"⟩
       else ⟨if samplePlan.side = Side.sell then -q else q, none⟩) :=
  ⟨by norm_num,
   c5_loss_decay_applied.2 ⟨1/100, 3, 5, ⟨0, 0⟩⟩ samplePlan (.fixed 99) 998 2 none
     (by norm_num)
     (by norm_num)
     (by simp [samplePlan, StopLossSpec.resolvedStopPrice]; norm_num)⟩

/-- C10: with risk_per_trade_pct = 0 and zero min_qty / min_notional, the
sizer returns qty 0 with no reason for any plan with positive equity,
positive effective leverage, positive entry price and non-zero stop
distance; consequently `review_orderplan` on such a configuration rejects
with approved=false and reason None, carrying no stable reason string. -/
theorem c10_zero_risk_silent_rejection :
    (∀ (cfg : SizerConfig) (plan : OrderPlan) (sl : StopLossSpec) (ve : ℚ) (c : ℕ)
        (lev : Option ℚ),
      cfg.riskPerTradePct = 0 →
      cfg.marketConstraints.minQty = 0 →
      cfg.marketConstraints.minNotional = 0 →
      0 < ve →
      0 < min (lev.getD cfg.defaultLeverage) cfg.maxLeverage →
      0 < |plan.entryPrice - sl.resolvedStopPrice plan.entryPrice plan.side| →
      0 < plan.entryPrice →
      calculateQty cfg plan sl ve c lev = ⟨0, none⟩) ∧
    (reviewOrderplan c10m samplePlan 0 false).map Prod.fst =
      some ⟨false, none, none⟩ := by
  constructor
  · intro cfg plan sl ve c lev hpct hminq hminn hve hlev hrisk hentry
    unfold calculateQty
    rw [if_neg (not_le.mpr hve), if_neg (not_le.mpr hlev), if_neg (not_le.mpr hrisk)]
    rw [hpct, hminq, hminn]
    have hcap : 0 ≤ ve * min (lev.getD cfg.defaultLeverage) cfg.maxLeverage / plan.entryPrice :=
      le_of_lt (div_pos (mul_pos hve hlev) hentry)
    rw [mul_zero, zero_div]
    dsimp only
    rw [min_eq_left hcap, zero_mul]
    rw [if_neg (lt_irrefl 0), zero_mul, if_neg (lt_irrefl 0)]
    split
    · rw [neg_zero]
    · rfl
  · simp only [reviewOrderplan, reviewDecision, c10m, c10cfg, samplePlan, initManager,
      registerVa, updateVa, rollDay, dayIdOf, calculateQty, lossDecay, RiskConfig.sizer,
      wouldBreachCap, sumNotionalForSymbol, lookupPosition, StopLossSpec.kindFixed,
      StopLossSpec.resolvedStopPrice]
    norm_num
    exact fun h => nomatch h

/-- C10 witness: the sizer conclusion at equity 1000, entry 100, fixed
stop 99 with zero risk budget and zero market constraints. -/
theorem c10_witness :
    0 < (1000:ℚ) ∧
    calculateQty ⟨0, 3, 5, ⟨0, 0⟩⟩ samplePlan (.fixed 99) 1000 0 none = ⟨0, none⟩ :=
  ⟨by norm_num,
   c10_zero_risk_silent_rejection.1 ⟨0, 3, 5, ⟨0, 0⟩⟩ samplePlan (.fixed 99) 1000 0 none
     rfl rfl rfl (by norm_num) (by norm_num)
     (by norm_num [samplePlan, StopLossSpec.resolvedStopPrice])
     (by norm_num [samplePlan])⟩

/-- C3 counterexample: with the scenario-1 candle set plus the future
candle closing at t0+25m, the evaluator at as_of = t0+24m59s does not
return None — all four original candles are already eligible
(4 = N+1 is not fewer than N+1), so the scenario-1 breakout plan is
emitted. -/
theorem c3_counterexample :
    evaluate scenStratCfg "va1" "BTCUSDT" 1499 scenCandles ≠ none := by
  have h : evaluate scenStratCfg "va1" "BTCUSDT" 1499 scenCandles =
      some ⟨"va1", "BTCUSDT", .buy, .market, 105, "vol_breakout_5m_closed",
            some (.fixed (307/3)), some (1643/15)⟩ := by
    simp only [evaluate, scenCandles, mkCandle, scenStratCfg, eligibleCandle, listMax, listMin,
      List.filter_cons, List.filter_nil]
    norm_num [max_def, List.dropLast, List.getLast?]
  rw [h]
  exact fun hc => nomatch hc

/-- C3 (amended): the evaluator uses only candles of the requested symbol
with close_time ≤ as_of (its result is unchanged by restricting the input
to the eligible candles) and returns no signal when fewer than N+1 such
candles exist; on the scenario candle set, at as_of = t0+24m59s it emits
the scenario-1 plan (BUY at entry 105, the candle closing at t0+20m as
trigger), and at as_of = t0+25m it emits the plan whose trigger is the
newer candle (BUY at entry 109). -/
theorem c3_no_lookahead :
    (∀ (cfg : StrategyConfig) (va sym : String) (asOf : ℤ) (cs : List Candle),
      evaluate cfg va sym asOf (cs.filter (eligibleCandle sym asOf)) =
        evaluate cfg va sym asOf cs) ∧
    (∀ (cfg : StrategyConfig) (va sym : String) (asOf : ℤ) (cs : List Candle),
      (cs.filter (eligibleCandle sym asOf)).length < cfg.lookbackCandles + 1 →
      evaluate cfg va sym asOf cs = none) ∧
    evaluate scenStratCfg "va1" "BTCUSDT" 1499 scenCandles =
      some ⟨"va1", "BTCUSDT", .buy, .market, 105, "vol_breakout_5m_closed",
            some (.fixed (307/3)), some (1643/15)⟩ ∧
    evaluate scenStratCfg "va1" "BTCUSDT" 1500 scenCandles =
      some ⟨"va1", "BTCUSDT", .buy, .market, 109, "vol_breakout_5m_closed",
            some (.fixed 106), some (1141/10)⟩ := by
  refine ⟨?_, ?_, ?_, ?_⟩
  · intro cfg va sym asOf cs
    simp only [evaluate, filter_filter_self]
  · intro cfg va sym asOf cs h
    simp only [evaluate, if_pos h]
  · simp only [evaluate, scenCandles, mkCandle, scenStratCfg, eligibleCandle, listMax, listMin,
      List.filter_cons, List.filter_nil]
    norm_num [max_def, List.dropLast, List.getLast?]
  · simp only [evaluate, scenCandles, mkCandle, scenStratCfg, eligibleCandle, listMax, listMin,
      List.filter_cons, List.filter_nil]
    norm_num [max_def, List.dropLast, List.getLast?]

/-- C3 witness: the fewer-than-N+1 branch applied at as_of = −1, where no
candle is eligible. -/
theorem c3_witness :
    (scenCandles.filter (eligibleCandle "BTCUSDT" (-1))).length <
      scenStratCfg.lookbackCandles + 1 ∧
    evaluate scenStratCfg "va1" "BTCUSDT" (-1) scenCandles = none :=
  ⟨by decide, c3_no_lookahead.2.1 scenStratCfg "va1" "BTCUSDT" (-1) scenCandles (by decide)⟩

set_option maxHeartbeats 2000000 in
/-- C6: day-roll behaviour.  `_roll_day` stores the day id computed from
(now − daily_reset_hour_utc hours) without resetting anything when the
stored day id is None; resets daily_pnl and daily_trades when the stored
day id differs; leaves the state unchanged when it matches.  In the
scenario (max_trades_per_day = 1, reset hour 0), a reserving review at
2025-01-01 23:59Z is approved, a second review the same minute is
rejected max_trades_per_day, and a review at 2025-01-02 00:01Z is
approved again. -/
theorem c6_day_roll :
    (∀ (cfg : RiskConfig) (st : VaState) (now : ℤ), st.dayId = none →
      rollDay cfg st now =
        { st with dayId := some (dayIdOf cfg.dailyResetHourUtc now) }) ∧
    (∀ (cfg : RiskConfig) (st : VaState) (now : ℤ) (old : ℤ), st.dayId = some old →
      old ≠ dayIdOf cfg.dailyResetHourUtc now →
      rollDay cfg st now =
        { st with dayId := some (dayIdOf cfg.dailyResetHourUtc now),
                  dailyPnl := 0, dailyTrades := 0 }) ∧
    (∀ (cfg : RiskConfig) (st : VaState) (now : ℤ) (old : ℤ), st.dayId = some old →
      old = dayIdOf cfg.dailyResetHourUtc now → rollDay cfg st now = st) ∧
    (reviewOrderplan c6m0 samplePlan c6t1 true).map Prod.fst =
      some ⟨true, none, some 10⟩ ∧
    (reviewOrderplan (execOp c6m0 (.review samplePlan c6t1 true))
        samplePlan c6t2 true).map Prod.fst =
      some ⟨false, some "max_trades_per_day", none⟩ ∧
    (reviewOrderplan
        (execOp (execOp c6m0 (.review samplePlan c6t1 true)) (.review samplePlan c6t2 true))
        samplePlan c6t3 true).map Prod.fst =
      some ⟨true, none, some 10⟩ := by
  refine ⟨?_, ?_, ?_, ?_, ?_, ?_⟩
  · intro cfg st now h
    simp [rollDay, h]
  · intro cfg st now old h hne
    simp [rollDay, h, Ne.symm hne]
  · intro cfg st now old h heq
    simp [rollDay, h, heq]
  · simp only [reviewOrderplan, reviewDecision, c6m0, c6cfg, samplePlan, initManager,
      registerVa, updateVa, rollDay, dayIdOf, calculateQty, lossDecay, RiskConfig.sizer,
      wouldBreachCap, sumNotionalForSymbol, lookupPosition, StopLossSpec.kindFixed,
      StopLossSpec.resolvedStopPrice, c6t1, List.filter_nil, List.map_nil, List.sum_nil,
      List.find?_nil]
    norm_num
    simp
    norm_num
  · simp only [execOp, reviewOrderplan, reviewDecision, c6m0, c6cfg, samplePlan, initManager,
      registerVa, updateVa, rollDay, dayIdOf, calculateQty, lossDecay, RiskConfig.sizer,
      wouldBreachCap, sumNotionalForSymbol, lookupPosition, StopLossSpec.kindFixed,
      StopLossSpec.resolvedStopPrice, c6t1, c6t2, List.filter_nil, List.map_nil, List.sum_nil,
      List.find?_nil]
    norm_num [Int.fdiv]
    simp
    norm_num
  · simp only [execOp, reviewOrderplan, reviewDecision, c6m0, c6cfg, samplePlan, initManager,
      registerVa, updateVa, rollDay, dayIdOf, calculateQty, lossDecay, RiskConfig.sizer,
      wouldBreachCap, sumNotionalForSymbol, lookupPosition, StopLossSpec.kindFixed,
      StopLossSpec.resolvedStopPrice, c6t1, c6t2, c6t3, List.filter_nil, List.map_nil,
      List.sum_nil, List.find?_nil]
    norm_num [Int.fdiv]
    simp
    norm_num

/-- C6 witness: the None-day branch applied to a state with unset day id:
the day id is stored and daily counters are untouched. -/
theorem c6_witness :
    VaState.dayId ⟨1000, 1000, 7, 3, none, 0, false⟩ = none ∧
    rollDay {} ⟨1000, 1000, 7, 3, none, 0, false⟩ 0 =
      { (⟨1000, 1000, 7, 3, none, 0, false⟩ : VaState) with dayId := some (dayIdOf 0 0) } :=
  ⟨rfl, c6_day_roll.1 {} ⟨1000, 1000, 7, 3, none, 0, false⟩ 0 rfl⟩

/-- C1: for a registered VA (with non-negative real equity and a positive
entry price), `review_orderplan` returns exactly the result of the
spec-side ordered check chain `reviewSpec` written from §4.4 — the first
failing check in the listed order with its stable reason string, the
sizer's reason on qty = 0, and on full success the approval carrying the
sized qty — and it does return a result (no error). -/
theorem c1_review_first_failure (m : RiskManager) (plan : OrderPlan) (now : ℤ)
    (reserve : Bool) (st0 : VaState)
    (hva : m.va plan.vaId = some st0)
    (hre : 0 ≤ m.realEquity)
    (hentry : 0 < plan.entryPrice) :
    (reviewOrderplan m plan now reserve).map Prod.fst = reviewSpec m plan now ∧
    (reviewOrderplan m plan now reserve).isSome := by
  constructor
  · unfold reviewOrderplan reviewSpec
    rw [hva]
    dsimp only
    have hmap : ∀ (r : ReviewResult) (m1 m2 : RiskManager) (c : Bool),
        Option.map Prod.fst (if c = true then some (r, m2) else some (r, m1)) = some r := by
      intro r m1 m2 c
      split <;> rfl
    rw [hmap]
    unfold reviewDecision
    dsimp only [updateVa]
    cases hsl : plan.stopLoss with
    | none => rfl
    | some sl =>
      dsimp only
      rw [wouldBreachCap_eq _ _ _ _ _ hre]
      cases hpos : lookupPosition m.positions plan.vaId plan.symbol with
      | none =>
        cases hb : m.blockedUntil (plan.vaId, plan.symbol) <;>
        cases howner : m.symbolOwner plan.symbol <;>
          simp only [Option.any, bne_iff_ne, decide_eq_true_eq, ne_eq]
      | some p =>
        simp only [Option.any, bne_iff_ne, decide_eq_true_eq, ne_eq, Position.sideOf]
        by_cases hq1 : 0 < p.qty <;> by_cases hq2 : p.qty < 0 <;>
        cases hb : m.blockedUntil (plan.vaId, plan.symbol) <;>
        cases howner : m.symbolOwner plan.symbol <;>
          simp only [hq1, hq2, if_true, if_false, Option.any, bne_iff_ne,
            decide_eq_true_eq, ne_eq]
  · unfold reviewOrderplan
    rw [hva]
    dsimp only
    split <;> rfl

/-- C1 witness: the equivalence applied to the sample manager (va1
registered at 1000, real equity 10000) and the sample BUY plan. -/
theorem c1_witness :
    sampleManager.va samplePlan.vaId = some ⟨1000, 1000, 0, 0, none, 0, false⟩ ∧
    0 ≤ sampleManager.realEquity ∧ 0 < samplePlan.entryPrice ∧
    ((reviewOrderplan sampleManager samplePlan 0 true).map Prod.fst =
       reviewSpec sampleManager samplePlan 0 ∧
     (reviewOrderplan sampleManager samplePlan 0 true).isSome) :=
  ⟨rfl, by norm_num [sampleManager, registerVa, initManager, updateVa],
   by norm_num [samplePlan],
   c1_review_first_failure sampleManager samplePlan 0 true ⟨1000, 1000, 0, 0, none, 0, false⟩
     rfl (by norm_num [sampleManager, registerVa, initManager, updateVa])
     (by norm_num [samplePlan])⟩

/-- C9: with reserve=false, a review is read-only except for the day
roll, which is idempotent at a fixed `now`; hence two successive
`review_orderplan(plan, now, reserve=false)` calls on a registered VA
return the same ReviewResult (and the same manager state). -/
theorem c9_review_idempotent (m : RiskManager) (plan : OrderPlan) (now : ℤ) (st0 : VaState)
    (hva : m.va plan.vaId = some st0) :
    ∃ r m1, reviewOrderplan m plan now false = some (r, m1) ∧
            reviewOrderplan m1 plan now false = some (r, m1) := by
  unfold reviewOrderplan
  rw [hva]
  dsimp only
  simp only [Bool.and_false, Bool.false_eq_true, if_false]
  refine ⟨_, _, rfl, ?_⟩
  rw [updateVa_va_self]
  dsimp only
  simp only [updateVa, rollDay_rollDay]
  have hfun : (fun x => if x = plan.vaId then some (rollDay m.config st0 now)
      else if x = plan.vaId then some (rollDay m.config st0 now) else m.va x)
      = fun x => if x = plan.vaId then some (rollDay m.config st0 now) else m.va x := by
    funext x
    by_cases h : x = plan.vaId <;> simp [h]
  rw [hfun]

/-- C9 witness: the idempotence theorem applied to the sample manager and
plan at now = 0. -/
theorem c9_witness :
    sampleManager.va samplePlan.vaId = some ⟨1000, 1000, 0, 0, none, 0, false⟩ ∧
    ∃ r m1, reviewOrderplan sampleManager samplePlan 0 false = some (r, m1) ∧
            reviewOrderplan m1 samplePlan 0 false = some (r, m1) :=
  ⟨rfl, c9_review_idempotent sampleManager samplePlan 0 ⟨1000, 1000, 0, 0, none, 0, false⟩ rfl⟩

/-- C7: on any manager state whose position dict has unique (va, symbol)
keys and no zero-qty entries (as every state reachable through
record_position does), record_position(va, sym, q≠0, ap) followed by
record_position(va, sym, 0, _) removes the (va, sym) position, and the
symbol owner for sym is released if and only if no other position on sym
remains in the position map. -/
theorem c7_record_position_round_trip (m : RiskManager) (va sym : String) (q ap x : ℚ)
    (hq : q ≠ 0)
    (hnz : ∀ p ∈ m.positions, p.qty ≠ 0)
    (huniq : m.positions.Pairwise fun a b => ¬(a.vaId = b.vaId ∧ a.symbol = b.symbol)) :
    lookupPosition (recordPosition (recordPosition m va sym q ap) va sym 0 x).positions
      va sym = none ∧
    ((recordPosition (recordPosition m va sym q ap) va sym 0 x).symbolOwner sym = none ↔
      ¬ ∃ p ∈ (recordPosition (recordPosition m va sym q ap) va sym 0 x).positions,
        p.symbol = sym) := by
  have hm1 : recordPosition m va sym q ap =
      { m with positions := upsertPosition m.positions ⟨va, sym, q, ap⟩,
               symbolOwner := fun s => if s = sym then some va else m.symbolOwner s } := by
    unfold recordPosition
    rw [if_neg hq]
  rw [hm1]
  set ps1 := upsertPosition m.positions ⟨va, sym, q, ap⟩ with hps1
  have hps1uniq : ps1.Pairwise fun a b => ¬(a.vaId = b.vaId ∧ a.symbol = b.symbol) :=
    pairwise_upsertPosition huniq
  have hnz1 : ∀ p ∈ ps1, p.qty ≠ 0 := by
    intro p hp
    rcases mem_upsertPosition hp with hp | hp
    · exact hnz p hp
    · rw [hp]; exact hq
  set ps2 := erasePosition va sym ps1 with hps2
  have hnz2 : ∀ p ∈ ps2, p.qty ≠ 0 := fun p hp => hnz1 p (mem_erasePosition hp)
  have hlook : lookupPosition ps2 va sym = none := lookup_erase_none hps1uniq
  unfold recordPosition
  rw [if_pos rfl]
  dsimp only
  rw [if_pos rfl]
  by_cases hany : anyPositionForSymbol ps2 sym = true
  · rw [if_neg (by simp [hany])]
    dsimp only
    constructor
    · exact hlook
    · rcases (anyPositionForSymbol_iff ps2 sym).mp hany with ⟨p, hp, hpsym, _⟩
      constructor
      · intro h
        exact absurd h (by simp)
      · intro h
        exact absurd ⟨p, hp, hpsym⟩ h
  · rw [if_pos (by simp [hany])]
    dsimp only
    constructor
    · exact hlook
    · rw [if_pos rfl]
      constructor
      · intro _ ⟨p, hp, hpsym⟩
        exact hany ((anyPositionForSymbol_iff ps2 sym).mpr ⟨p, hp, hpsym, hnz2 p hp⟩)
      · intro _
        rfl

/-- C7 witness: the round trip for va1 on BTCUSDT while vb still holds a
position on BTCUSDT, so ownership is not released. -/
theorem c7_witness :
    (3:ℚ) ≠ 0 ∧ (∀ p ∈ c7m.positions, p.qty ≠ 0) ∧
    (lookupPosition (recordPosition (recordPosition c7m "va1" "BTCUSDT" 3 100)
        "va1" "BTCUSDT" 0 0).positions "va1" "BTCUSDT" = none ∧
     ((recordPosition (recordPosition c7m "va1" "BTCUSDT" 3 100)
        "va1" "BTCUSDT" 0 0).symbolOwner "BTCUSDT" = none ↔
      ¬ ∃ p ∈ (recordPosition (recordPosition c7m "va1" "BTCUSDT" 3 100)
        "va1" "BTCUSDT" 0 0).positions, p.symbol = "BTCUSDT")) :=
  ⟨by decide, by decide,
   c7_record_position_round_trip c7m "va1" "BTCUSDT" 3 100 0 (by decide) (by decide)
     (by simp [c7m])⟩

/-- C4 counterexample: register_va accepts a non-positive virtual equity
and initialises kill_switch to False, so immediately after
register_va("a", 0) the tracked VA has virtual_equity ≤ 0 with the kill
switch off — the claimed invariant fails. -/
theorem c4_counterexample :
    ¬ KillInvariant (execOps (initManager {} 1000) [.register "a" 0]) := by
  intro h
  have hlook : (execOps (initManager {} 1000) [.register "a" 0]).va "a" =
      some ⟨0, 0, 0, 0, none, 0, false⟩ := by
    simp [execOps, execOp, registerVa, updateVa, initManager]
  have h2 := h "a" ⟨0, 0, 0, 0, none, 0, false⟩ hlook
  exact absurd (h2.1 le_rfl) (by decide)

/-- C4 (amended): for a manager whose config has max_drawdown_pct > 0
and which satisfies the kill-switch invariant, any sequence of
register_va / review_orderplan / record_trade_pnl / record_position
calls in which every register_va supplies positive virtual equity
preserves the invariant: every tracked VA with virtual_equity ≤ 0, or
with drawdown 1 − equity/peak ≥ max_drawdown_pct while peak > 0, has
kill_switch = true. -/
theorem c4_kill_switch_invariant (m : RiskManager) (ops : List RmOp)
    (hdd : 0 < m.config.maxDrawdownPct) (hinv : KillInvariant m)
    (hops : ∀ op ∈ ops, RegisterPositive op) : KillInvariant (execOps m ops) := by
  induction ops generalizing m with
  | nil => exact hinv
  | cons op ops ih =>
    simp only [execOps, List.foldl_cons]
    have hstep := execOp_kill_invariant m op hdd hinv (hops op (List.mem_cons_self op ops))
    have hcfg := execOp_config m op
    exact ih (execOp m op) (hcfg ▸ hdd) hstep (fun o ho => hops o (List.mem_cons_of_mem op ho))

/-- C4 witness: the invariant after registering va "a" at 100 and
recording a −50 loss, from a fresh default-config manager. -/
theorem c4_witness :
    0 < (initManager {} 1000).config.maxDrawdownPct ∧
    KillInvariant (execOps (initManager {} 1000)
      [.register "a" 100, .recordPnl "a" "S" (-50) 0]) :=
  ⟨by norm_num [initManager],
   c4_kill_switch_invariant (initManager {} 1000) _ (by norm_num [initManager])
     (fun _ _ h => nomatch h)
     (by
       intro op hop
       rcases List.mem_cons.mp hop with h | h
       · subst h
         exact (by norm_num : (0:ℚ) < 100)
       · rcases List.mem_cons.mp h with h2 | h2
         · subst h2
           exact trivial
         · cases h2)⟩

end Engine
